import Mathlib

/-!
Shallow embedding of the cs-analytics pipeline core (fetchData.ts,
analyzeMessages.ts, cleanupShortMessages.sql, lib/openai.ts schema/prompt)
for checking the specification's claims.

Conventions of the embedding:
* JavaScript `a || b` on strings is modelled by `jsOrStr` (empty string is
  falsy); on optional values by matching (`none`/`some ""` falsy).
* Timestamps are integers (milliseconds since epoch), as produced by
  `Date.getTime()`.
* The external paged API is an abstract function `fetch : Nat → List Item`
  from page number to the page's items; network effects (sleeps, logging)
  are irrelevant to the claims and dropped.
-/

/-- JavaScript `s1 || s2` for strings: the empty string is falsy. -/
def jsOrStr (a b : String) : String := if a = "" then b else a

/-- JavaScript `n || d` for non-negative integers: `0` is falsy. -/
def jsOrNat (a d : Nat) : Nat := if a = 0 then d else a

/-- JavaScript `o || d` where `o` is a possibly-absent string
(`undefined` and `""` are both falsy). -/
def jsOrOptStr (o : Option String) (d : String) : String :=
  match o with
  | some s => if s = "" then d else s
  | none => d

/-- JavaScript `o || d` where `o` is a possibly-absent number
(`undefined` and `0` are both falsy). -/
def jsOrOptNum (o : Option ℚ) (d : ℚ) : ℚ :=
  match o with
  | some x => if x = 0 then d else x
  | none => d

/-- JavaScript's `\s` / whitespace class (modelled as Unicode whitespace). -/
def isJsWs (c : Char) : Bool := c.isWhitespace

/-- Whitespace-trimming on the character list of a string. -/
def trimList (cs : List Char) : List Char :=
  ((cs.dropWhile isJsWs).reverse.dropWhile isJsWs).reverse

/-- JavaScript `s.trim()` / SQL `TRIM(s)`. -/
def jsTrim (s : String) : String := ⟨trimList s.data⟩

/-- Split a character list at every whitespace character, keeping empty
pieces (as `String.split` / splitting on single characters does); after
filtering out empty pieces this yields the maximal non-whitespace runs,
exactly what `split(/\s+/).filter(w => w.length > 0)` computes. -/
def splitOnWs : List Char → List (List Char)
  | [] => [[]]
  | c :: rest =>
    if isJsWs c then [] :: splitOnWs rest
    else
      match splitOnWs rest with
      | [] => [[c]]
      | piece :: pieces => (c :: piece) :: pieces

/-! ## Paginated fetch client (fetchData.ts, `fetchWithRetry` lines 53-70) -/

/-- Outcome of one HTTP GET: success with opaque data, or a failure carrying
an optional HTTP status (`err?.response?.status`). -/
inductive FetchOutcome where
  | success (data : List String)
  | failure (status : Option Nat)
deriving DecidableEq, Repr

/-- `fetchWithRetry(path, params, attempt)` from fetchData.ts lines 53-70.
The network is abstracted as `f : Nat → FetchOutcome`, giving the outcome
of the HTTP call made on attempt number `a` (attempts are numbered from 1).
Returns the final outcome, the total number of HTTP calls made, and the
list of backoff delays (ms) slept between calls. -/
def fetchWithRetry (f : Nat → FetchOutcome) (attempt : Nat) :
    FetchOutcome × Nat × List Nat :=
  match f attempt with
  | .success d => (.success d, 1, [])
  | .failure st =>
    if h : st = some 429 ∧ attempt < 4 then
      let backoff := 2 ^ (attempt - 1) * 1000
      let rest := fetchWithRetry f (attempt + 1)
      (rest.1, rest.2.1 + 1, backoff :: rest.2.2)
    else
      (.failure st, 1, [])
termination_by 4 - attempt
decreasing_by omega

/-! ## `paginate` (fetchData.ts lines 76-113) -/

/-- One item of a paged response; `id`/`uuid` are `""` when absent. -/
structure Item where
  id : String
  uuid : String
deriving DecidableEq, Repr

/-- `pageItems[0] && (pageItems[0].id || pageItems[0].uuid)` from line 94. -/
def firstIdOf (pageItems : List Item) : Option String :=
  match pageItems with
  | [] => none
  | it :: _ =>
    if it.id ≠ "" then some it.id
    else if it.uuid ≠ "" then some it.uuid
    else none

/-- The `while (true)` loop body of `paginate` (lines 83-111), with state
(accumulated `items`, `seenFirstIds`, current `page`, `safety` counter) made
explicit.  Also counts the number of `fetchWithRetry` calls issued.  The
loop terminates because `safety` increases on every continuation and the
guard stops at 200. -/
def paginateLoop (fetch : Nat → List Item) (pageSize : Nat) :
    List Item → List String → Nat → Nat → Nat → List Item × Nat
  | items, seen, page, safety, calls =>
    let pageItems := fetch page
    if pageItems.isEmpty then (items, calls + 1)
    else
      let items2 := items ++ pageItems
      match firstIdOf pageItems with
      | some fid =>
        if fid ∈ seen then (items2, calls + 1)
        else if pageItems.length < pageSize then (items2, calls + 1)
        else if items2.length = items.length then (items2, calls + 1)
        else if h : safety + 1 > 200 then (items2, calls + 1)
        else paginateLoop fetch pageSize items2 (fid :: seen) (page + 1) (safety + 1) (calls + 1)
      | none =>
        if pageItems.length < pageSize then (items2, calls + 1)
        else if items2.length = items.length then (items2, calls + 1)
        else if h : safety + 1 > 200 then (items2, calls + 1)
        else paginateLoop fetch pageSize items2 seen (page + 1) (safety + 1) (calls + 1)
termination_by _ _ _ safety _ => 201 - safety
decreasing_by all_goals omega

/-- `paginate(path, params, itemsKey)`: `page = params.page || 1`,
`pageSize = params.items_per_page || 10`, then the loop starting from empty
accumulator.  Returns the collected items and the number of fetch calls. -/
def paginate (fetch : Nat → List Item) (itemsPerPage pageParam : Nat) :
    List Item × Nat :=
  paginateLoop fetch (jsOrNat itemsPerPage 10) [] [] (jsOrNat pageParam 1) 0 0

/-! ## Classification engine (analyzeMessages.ts) -/

/-- A row of the `Message` table as selected by `fetchMessagesForAnalysis`
(analyzeMessages.ts lines 33-39); `created_time` as epoch milliseconds. -/
structure Msg where
  id : String
  conversationid : String
  actor_type : String
  message_parts : String
  created_time : Int
deriving DecidableEq, Repr

/-- The short-message filter of analyzeMessages.ts lines 77-91:
`text = m.message_parts.trim()`, `wordCount = text.split(/\s+/).filter(w =>
w.length > 0).length`, `charCount = text.length`, short iff
`wordCount <= 2 || charCount <= 10`. -/
def isShortMessage (content : String) : Bool :=
  let text := jsTrim content
  let wordCount := ((splitOnWs text.data).filter fun w => w ≠ []).length
  let charCount := text.length
  wordCount ≤ 2 || charCount ≤ 10

/-- `fetchMessagesForAnalysis` (analyzeMessages.ts lines 51-116), selection
part.  `analyzedIds` is the set of `message_id`s present in
`MessageAnalysis`; `messageTable` is the `Message` table.  The store query
filters `actor_type = 'user'` and `message_parts <> ''`, orders by
`created_time` descending and limits to 1000 rows; the code then drops
already-analyzed and short messages.  (Grouping by conversation and
within-conversation ordering do not change the selected set and are
omitted.) -/
def fetchMessagesForAnalysis (analyzedIds : List String) (messageTable : List Msg) :
    List Msg :=
  let fromStore :=
    (((messageTable.filter fun m => m.actor_type = "user" && m.message_parts ≠ "").mergeSort
        fun a b => b.created_time ≤ a.created_time).take 1000)
  (fromStore.filter fun m => ¬ analyzedIds.contains m.id).filter
    fun m => ¬ isShortMessage m.message_parts

/-- The model identifier, lib/openai.ts: `export const MODEL = ...`. -/
def MODEL : String := "gpt-4o-mini-2024-07-18"

/-- One element of the classifier response's `messages` array
(analyzeMessages.ts lines 41-46); every field may be absent in a malformed
response, hence `Option`. -/
structure AnalysisResult where
  language : Option String
  category : Option String
  tag : Option String
  confidence : Option ℚ
deriving DecidableEq, Repr

/-- A `MessageAnalysis` row as built for upsert. -/
structure AnalysisRow where
  message_id : String
  language : String
  category : String
  tag : String
  confidence : ℚ
  model_version : String
deriving DecidableEq, Repr

/-- The row construction of analyzeMessages.ts lines 142-149:
`language: result.language || 'unknown'`, `category: result.category ||
'others'`, `tag: result.tag || 'cs'`, `confidence: result.confidence ||
0.5`, `model_version: MODEL`. -/
def toAnalysisRow (mid : String) (r : AnalysisResult) : AnalysisRow :=
  { message_id := mid
    language := jsOrOptStr r.language "unknown"
    category := jsOrOptStr r.category "others"
    tag := jsOrOptStr r.tag "cs"
    confidence := jsOrOptNum r.confidence (1 / 2)
    model_version := MODEL }

/-- The batch of rows sent to the `MessageAnalysis` upsert: results are
paired positionally with the first `MAX_MESSAGES_PER_BATCH = 20` messages
(`messagesToAnalyze[index].id`). -/
def toAnalysisRows (messages : List Msg) (results : List AnalysisResult) :
    List AnalysisRow :=
  List.zipWith (fun m r => toAnalysisRow m.id r) (messages.take 20) results

/-- The `CHECK (confidence >= 0 AND confidence <= 1)` constraint on the
`MessageAnalysis` table (schema.sql): the store accepts a row only when
the constraint holds. -/
def messageAnalysisCheckOk (row : AnalysisRow) : Bool :=
  decide (0 ≤ row.confidence) && decide (row.confidence ≤ 1)

/-- Modelled from the spec: the §4.4 tag-derivation table (kyc, app_related,
payment, others → cs; price_inquiry, hub_inquiry, offer_inquiry,
bike_inquiry → bot; bike_not_moving, battery_problem → escalated), stated
from the spec's words for comparison with the engine's behaviour; no engine
code computes this function. -/
def specTagForCategory (category : String) : Option String :=
  if category = "kyc" ∨ category = "app_related" ∨ category = "payment" ∨
      category = "others" then some "cs"
  else if category = "price_inquiry" ∨ category = "hub_inquiry" ∨
      category = "offer_inquiry" ∨ category = "bike_inquiry" then some "bot"
  else if category = "bike_not_moving" ∨ category = "battery_problem" then
    some "escalated"
  else none

/-! ## Failure ledger (analyzeMessages.ts lines 164-211,
cleanupShortMessages.sql view `FailedMessagesForRetry`) -/

/-- A row of the `AnalysisFailures` table (primary key `message_id`). -/
structure FailureRow where
  message_id : String
  conversation_id : String
  error_message : String
  error_type : String
  attempts : Nat
  last_attempt : Int
  next_retry : Option Int
deriving DecidableEq, Repr

/-- The `AnalysisFailures` table, keyed by its primary key. -/
def Ledger : Type := String → Option FailureRow

/-- One hour in milliseconds (`nextRetry.setHours(nextRetry.getHours() + 1)`). -/
def oneHourMs : Int := 3600000

/-- The per-message ledger upsert of analyzeMessages.ts lines 177-210: look
up the existing `AnalysisFailures` row for `mid`; if present, update it with
`attempts + 1`, `last_attempt = now`, `next_retry = now + 1h` and the new
error; otherwise insert a fresh row with `attempts = 1` and
`next_retry = now + 1h`. -/
def recordFailure (ledger : Ledger) (mid convId errMsg errType : String)
    (now : Int) : Ledger :=
  fun m =>
    if m = mid then
      match ledger mid with
      | some existing =>
        some { existing with
                attempts := existing.attempts + 1
                last_attempt := now
                next_retry := some (now + oneHourMs)
                error_message := errMsg
                error_type := errType }
      | none =>
        some { message_id := mid
               conversation_id := convId
               error_message := errMsg
               error_type := errType
               attempts := 1
               last_attempt := now
               next_retry := some (now + oneHourMs) }
    else ledger m

/-- `attempts` of the ledger row for `mid`, `0` when absent. -/
def attemptsAt (ledger : Ledger) (mid : String) : Nat :=
  match ledger mid with
  | some row => row.attempts
  | none => 0

/-- Postgres `array_length(regexp_split_to_array(TRIM(s), E'\\s+'), 1)`:
splitting the empty string yields one (empty) field; otherwise the number
of maximal non-whitespace runs. -/
def sqlWordCount (s : String) : Nat :=
  if jsTrim s = "" then 1
  else ((splitOnWs (jsTrim s).data).filter fun w => w ≠ []).length

/-- Membership in the `FailedMessagesForRetry` view
(cleanupShortMessages.sql lines 40-56): the ledger row joined to its
`Message` row, kept when `next_retry IS NOT NULL AND next_retry <= NOW()
AND attempts < 3` and the message is not short (`word count > 2 AND
LENGTH(TRIM(...)) > 10`).  `msgTable` is the `Message` table keyed by id. -/
def retryEligible (ledger : Ledger) (msgTable : String → Option Msg)
    (now : Int) (mid : String) : Bool :=
  match ledger mid, msgTable mid with
  | some af, some m =>
    match af.next_retry with
    | some nr =>
      decide (nr ≤ now) && decide (af.attempts < 3) &&
        decide (sqlWordCount m.message_parts > 2) &&
        decide ((jsTrim m.message_parts).length > 10)
    | none => false
  | _, _ => false

/-! ## Content normalizer (fetchData.ts, `extractMessageContent` lines
150-186) -/

/-- A JavaScript/JSON value as it may appear in `message_parts`.
`undefined` is represented by `jnull` (both are falsy and both yield no
object fields, which is all the normalizer observes). -/
inductive Json where
  | jnull
  | jbool (b : Bool)
  | jnum (n : Int)
  | jstr (s : String)
  | jarr (xs : List Json)
  | jobj (fields : List (String × Json))

/-- Optional-chaining field access `v?.k`: `none` (undefined) unless `v` is
an object with field `k`. -/
def Json.getField (v : Json) (k : String) : Option Json :=
  match v with
  | .jobj fields => (fields.find? fun f => f.1 = k).map fun f => f.2
  | _ => none

/-- JavaScript truthiness of a value. -/
def Json.truthy : Json → Bool
  | .jnull => false
  | .jbool b => b
  | .jnum n => n ≠ 0
  | .jstr s => s ≠ ""
  | .jarr _ => true
  | .jobj _ => true

/-- Truthiness of a possibly-undefined value. -/
def optTruthy : Option Json → Bool
  | some v => v.truthy
  | none => false

mutual

/-- JavaScript `String(v)` coercion. -/
def jsString : Json → String
  | .jnull => "null"
  | .jbool b => if b then "true" else "false"
  | .jnum n => toString n
  | .jstr s => s
  | .jarr xs => String.intercalate "," (jsStringArrElems xs)
  | .jobj _ => "[object Object]"
termination_by structural j => j

/-- Element coercion inside `Array.prototype.join`: `null`/`undefined`
become the empty string. -/
def jsStringArrElems : List Json → List String
  | [] => []
  | x :: xs =>
    (match x with
     | .jnull => ""
     | v => jsString v) :: jsStringArrElems xs
termination_by structural l => l

end

/-- The per-part extraction of the array branch of `extractMessageContent`
(lines 154-174): the text pushed for one part, or `none` when the part
matches no shape.  Shape priority: truthy `part?.text?.content`, then
truthy `part?.content`, then `part?.text` being a (truthy) string, then the
part itself being a string. -/
def extractPartText (part : Json) : Option String :=
  let tc := (part.getField "text").bind fun t => t.getField "content"
  if optTruthy tc then some (jsTrim (jsString (tc.getD .jnull)))
  else if optTruthy (part.getField "content") then
    some (jsTrim (jsString ((part.getField "content").getD .jnull)))
  else
    match part.getField "text" with
    | some (.jstr s) =>
      if s ≠ "" then some (jsTrim s)
      else match part with
           | .jstr s2 => some (jsTrim s2)
           | _ => none
    | _ =>
      match part with
      | .jstr s2 => some (jsTrim s2)
      | _ => none

/-- `extractMessageContent(parts)` (fetchData.ts lines 150-186): a total
function from arbitrary input to a plain string.  `if (!parts) return ''`;
arrays extract every part, drop empty texts and join with one space;
single objects use the same shape priority with a `String(parts)` fallback;
anything else is coerced with `String(...)` and trimmed. -/
def extractMessageContent (parts : Json) : String :=
  if ¬ parts.truthy then ""
  else
    match parts with
    | .jarr ps =>
      let texts := ps.filterMap extractPartText
      String.intercalate " " (texts.filter fun t => t.length > 0)
    | .jobj _ =>
      let tc := (parts.getField "text").bind fun t => t.getField "content"
      if optTruthy tc then jsTrim (jsString (tc.getD .jnull))
      else if optTruthy (parts.getField "content") then
        jsTrim (jsString ((parts.getField "content").getD .jnull))
      else
        match parts.getField "text" with
        | some (.jstr s) =>
          if s ≠ "" then jsTrim s else jsTrim (jsString parts)
        | _ => jsTrim (jsString parts)
    | _ => jsTrim (jsString parts)

/-! ## Incremental sync window (fetchData.ts, `isWithinWindow` line 229 and
the conversation loop of `fetchAndStore`, lines 269-316) -/

/-- `isWithinWindow(isoString, windowStart, now)` with timestamps already
parsed to milliseconds: `t >= windowStart.getTime() && t <= now.getTime()`. -/
def isWithinWindow (t windowStart now : Int) : Bool :=
  windowStart ≤ t && t ≤ now

/-- The fields of a conversation record (`convoDetail` or the per-user
listing entry `uc`) consulted by the window decision; strings are `""` and
timestamps `none` when absent (both falsy in the source's `||` chains). -/
structure ConvoSrc where
  id : String
  uuid : String
  created_time : Option Int
  created_at : Option Int
  updated_time : Option Int
  updated_at : Option Int
deriving DecidableEq, Repr

/-- `convoDetail.id || uc.id || convoDetail.uuid || uc.uuid` (line 272). -/
def resolveConvoId (detail uc : ConvoSrc) : String :=
  jsOrStr detail.id (jsOrStr uc.id (jsOrStr detail.uuid uc.uuid))

/-- `createdIso = convoDetail.created_time || convoDetail.created_at ||
uc.created_time || uc.created_at` (line 278). -/
def resolveCreated (detail uc : ConvoSrc) : Option Int :=
  detail.created_time <|> detail.created_at <|> uc.created_time <|> uc.created_at

/-- `updatedIso = convoDetail.updated_time || convoDetail.updated_at ||
uc.updated_time || uc.updated_at || createdIso` (line 279). -/
def resolveUpdated (detail uc : ConvoSrc) : Option Int :=
  detail.updated_time <|> detail.updated_at <|> uc.updated_time <|>
    uc.updated_at <|> resolveCreated detail uc

/-- `createdInWindow = !!createdIso && isWithinWindow(createdIso, ...)`
(line 280), and the analogous `updatedInWindow`. -/
def inWindowOpt (iso : Option Int) (windowStart now : Int) : Bool :=
  match iso with
  | some t => isWithinWindow t windowStart now
  | none => false

/-- Outcome of the window gate of one conversation iteration. -/
inductive ConvoOutcome where
  | noId
  | skippedOutOfWindow
  | processed (convoId : String)
deriving DecidableEq, Repr

/-- Counters of `fetchAndStore` touched by the window gate. -/
structure SyncCounters where
  convsUpserted : Nat
  convsSkippedNotInWindow : Nat
deriving DecidableEq, Repr

/-- The window gate of one iteration of the conversation loop
(fetchAndStore lines 271-289): a conversation with no resolvable id is
skipped silently; one with neither `createdIso` nor `updatedIso` inside
`[windowStart, now]` is skipped and counted in `convsSkippedNotInWindow`
with no upsert; otherwise `upsertConversation` runs (`convsUpserted`
increments) and message fetching proceeds.  Returns the outcome, the
updated counters, and the upserted conversation id, if any. -/
def syncConvoStep (detail uc : ConvoSrc) (windowStart now : Int)
    (c : SyncCounters) : ConvoOutcome × SyncCounters × Option String :=
  let convoId := resolveConvoId detail uc
  if convoId = "" then (.noId, c, none)
  else
    let createdInWindow := inWindowOpt (resolveCreated detail uc) windowStart now
    let updatedInWindow := inWindowOpt (resolveUpdated detail uc) windowStart now
    if ¬ createdInWindow ∧ ¬ updatedInWindow then
      (.skippedOutOfWindow,
        { c with convsSkippedNotInWindow := c.convsSkippedNotInWindow + 1 }, none)
    else
      (.processed convoId,
        { c with convsUpserted := c.convsUpserted + 1 }, some convoId)

/-! ## Claims -/

/-- C1 counterexample: a classifier output with category
`"battery_problem"` but tag `"cs"` is persisted with tag `"cs"`, even
though the §4.4 table derives `"escalated"` from that category — so the
stored tag is not determined by the stored category. -/
theorem c1_tag_not_derived_counterexample :
    (toAnalysisRow "m1"
        { language := some "en", category := some "battery_problem",
          tag := some "cs", confidence := some (9 / 10) }).category =
      "battery_problem" ∧
    (toAnalysisRow "m1"
        { language := some "en", category := some "battery_problem",
          tag := some "cs", confidence := some (9 / 10) }).tag = "cs" ∧
    specTagForCategory "battery_problem" = some "escalated" ∧
    ("cs" : String) ≠ "escalated" :=
  ⟨rfl, rfl, by decide, by decide⟩

/-- C1 (amended): the persisted tag is the classifier's own tag field
(defaulting to `"cs"` when the field is missing or empty); it is not
recomputed from the category — changing the category of a classifier
output never changes the stored tag. -/
theorem c1_tag_trusts_classifier (mid : String) (r : AnalysisResult)
    (t : String) (ht : r.tag = some t) (hne : t ≠ "") :
    (toAnalysisRow mid r).tag = t ∧
    ∀ c, (toAnalysisRow mid { r with category := c }).tag =
      (toAnalysisRow mid r).tag := by
  refine ⟨?_, fun c => rfl⟩
  simp [toAnalysisRow, jsOrOptStr, ht, hne]

/-- C1 witness: concrete instance of `c1_tag_trusts_classifier`. -/
theorem c1_tag_trusts_classifier_witness :
    (toAnalysisRow "m1"
        { language := some "en", category := some "battery_problem",
          tag := some "bot", confidence := some (9 / 10) }).tag = "bot" :=
  (c1_tag_trusts_classifier "m1"
    { language := some "en", category := some "battery_problem",
      tag := some "bot", confidence := some (9 / 10) }
    "bot" rfl (by decide)).1

/-- C4 counterexample: an in-range classifier confidence of exactly `0` is
not stored unchanged — `result.confidence || 0.5` replaces it with `0.5`. -/
theorem c4_confidence_zero_counterexample :
    (toAnalysisRow "m1"
        { language := some "en", category := some "others",
          tag := some "cs", confidence := some 0 }).confidence = 1 / 2 ∧
    (0 : ℚ) ≤ 0 ∧ (0 : ℚ) ≤ 1 ∧
    (toAnalysisRow "m1"
        { language := some "en", category := some "others",
          tag := some "cs", confidence := some 0 }).confidence ≠ 0 := by
  refine ⟨?_, le_refl 0, by norm_num, ?_⟩ <;>
    simp [toAnalysisRow, jsOrOptNum]

/-- C4 (amended): a missing or exactly-zero classifier confidence is
replaced by the default `0.5`; any nonzero confidence is passed through
unchanged with no clamping; a persisted row satisfies the store's
`CHECK (confidence >= 0 AND confidence <= 1)` constraint, so every
confidence the store accepts lies in `[0, 1]`. -/
theorem c4_confidence_default_not_clamped (mid : String) (r : AnalysisResult) :
    (r.confidence = none → (toAnalysisRow mid r).confidence = 1 / 2) ∧
    (r.confidence = some 0 → (toAnalysisRow mid r).confidence = 1 / 2) ∧
    (∀ c : ℚ, r.confidence = some c → c ≠ 0 →
      (toAnalysisRow mid r).confidence = c) ∧
    (messageAnalysisCheckOk (toAnalysisRow mid r) = true →
      0 ≤ (toAnalysisRow mid r).confidence ∧
        (toAnalysisRow mid r).confidence ≤ 1) := by
  refine ⟨fun h => ?_, fun h => ?_, fun c hc hne => ?_, fun h => ?_⟩
  · simp [toAnalysisRow, jsOrOptNum, h]
  · simp [toAnalysisRow, jsOrOptNum, h]
  · simp [toAnalysisRow, jsOrOptNum, hc, hne]
  · simpa [messageAnalysisCheckOk, Bool.and_eq_true, decide_eq_true_eq] using h

/-- C4 witness: concrete instance of `c4_confidence_default_not_clamped`. -/
theorem c4_confidence_default_witness :
    (toAnalysisRow "m2"
        { language := none, category := none, tag := none,
          confidence := some 0 }).confidence = 1 / 2 :=
  (c4_confidence_default_not_clamped "m2"
    { language := none, category := none, tag := none,
      confidence := some 0 }).2.1 rfl

/-- A message passing the SQL view's length filters (word count > 2 and
trimmed length > 10) is not short in the engine's sense. -/
theorem sql_long_not_short (s : String) (hw : sqlWordCount s > 2)
    (hc : (jsTrim s).length > 10) : isShortMessage s = false := by
  unfold sqlWordCount at hw
  by_cases he : jsTrim s = ""
  · rw [if_pos he] at hw; omega
  · rw [if_neg he] at hw
    simp only [isShortMessage, Bool.or_eq_false_iff, decide_eq_false_iff_not, not_le]
    exact ⟨hw, hc⟩

/-- C2: a message is selected for first-time classification only if its
actor role is `"user"`, its content is non-empty, it has no
`MessageAnalysis` row, and it is not short; any message in the
retry-eligible view is likewise not short; and `"Ok"` is short, hence
never selected and never retry-eligible. -/
theorem c2_selection_and_short_exclusion :
    (∀ (analyzedIds : List String) (messageTable : List Msg) (m : Msg),
      m ∈ fetchMessagesForAnalysis analyzedIds messageTable →
        m.actor_type = "user" ∧ m.message_parts ≠ "" ∧
        analyzedIds.contains m.id = false ∧
        isShortMessage m.message_parts = false) ∧
    (∀ (ledger : Ledger) (msgTable : String → Option Msg) (now : Int)
        (mid : String) (m : Msg), msgTable mid = some m →
      retryEligible ledger msgTable now mid = true →
        isShortMessage m.message_parts = false) ∧
    isShortMessage "Ok" = true := by
  refine ⟨?_, ?_, by decide⟩
  · intro ids tbl m hm
    unfold fetchMessagesForAnalysis at hm
    rw [List.mem_filter] at hm
    obtain ⟨hm, hshort⟩ := hm
    rw [List.mem_filter] at hm
    obtain ⟨hm, hanalyzed⟩ := hm
    have hm2 := List.mem_of_mem_take hm
    rw [List.mem_mergeSort, List.mem_filter] at hm2
    obtain ⟨-, hbase⟩ := hm2
    simp only [Bool.and_eq_true, decide_eq_true_eq] at hbase hanalyzed hshort
    exact ⟨hbase.1, hbase.2, by simpa using hanalyzed, by simpa using hshort⟩
  · intro ledger mt now mid m hmt hre
    unfold retryEligible at hre
    rw [hmt] at hre
    cases hl : ledger mid with
    | none => rw [hl] at hre; exact absurd hre (by simp)
    | some af =>
      rw [hl] at hre
      cases hnr : af.next_retry with
      | none => simp [hnr] at hre
      | some nr =>
        simp only [hnr, Bool.and_eq_true, decide_eq_true_eq] at hre
        exact sql_long_not_short m.message_parts hre.1.2 hre.2

/-- C2 witness: concrete instance of `c2_selection_and_short_exclusion`. -/
theorem c2_witness :
    isShortMessage
      (Msg.mk "m1" "c1" "user" "my bike is not moving" 0).message_parts = false :=
  c2_selection_and_short_exclusion.2.1
    (fun m => if m = "m1"
      then some (FailureRow.mk "m1" "c1" "err" "unknown_error" 1 0 (some 0))
      else none)
    (fun m => if m = "m1"
      then some (Msg.mk "m1" "c1" "user" "my bike is not moving" 0)
      else none)
    5 "m1" (Msg.mk "m1" "c1" "user" "my bike is not moving" 0)
    (by decide) (by decide)

/-- `next_retry` of the ledger row for `mid`, `none` when absent. -/
def nextRetryAt (ledger : Ledger) (mid : String) : Option Int :=
  (ledger mid).bind fun row => row.next_retry

/-- C3: recording a classification failure increments `attempts` (to the
previous value plus 1 when a ledger row exists, to 1 on first failure) and
resets `next_retry` to now plus one hour; `attempts` never decreases; and
after three recorded failures the message's `attempts` is 3 and it is
absent from the retry-eligible view at every later time. -/
theorem c3_ledger_upsert_and_cutoff :
    (∀ (ledger : Ledger) (mid convId errMsg errType : String) (now : Int)
        (existing : FailureRow), ledger mid = some existing →
      attemptsAt (recordFailure ledger mid convId errMsg errType now) mid =
        existing.attempts + 1 ∧
      nextRetryAt (recordFailure ledger mid convId errMsg errType now) mid =
        some (now + oneHourMs)) ∧
    (∀ (ledger : Ledger) (mid convId errMsg errType : String) (now : Int),
      ledger mid = none →
      attemptsAt (recordFailure ledger mid convId errMsg errType now) mid = 1 ∧
      nextRetryAt (recordFailure ledger mid convId errMsg errType now) mid =
        some (now + oneHourMs)) ∧
    (∀ (ledger : Ledger) (mid convId errMsg errType : String) (now : Int)
        (m : String),
      attemptsAt ledger m ≤
        attemptsAt (recordFailure ledger mid convId errMsg errType now) m) ∧
    (∀ (ledger : Ledger) (mid : String), ledger mid = none →
      ∀ (cA eA tA cB eB tB cC eC tC : String) (nA nB nC : Int),
      attemptsAt (recordFailure (recordFailure (recordFailure ledger mid cA eA tA nA)
          mid cB eB tB nB) mid cC eC tC nC) mid = 3 ∧
      ∀ (msgTable : String → Option Msg) (now' : Int),
        retryEligible (recordFailure (recordFailure (recordFailure ledger mid cA eA tA nA)
            mid cB eB tB nB) mid cC eC tC nC) msgTable now' mid = false) := by
  refine ⟨?_, ?_, ?_, ?_⟩
  · intro ledger mid convId errMsg errType now existing h
    constructor <;> simp [recordFailure, attemptsAt, nextRetryAt, h]
  · intro ledger mid convId errMsg errType now h
    constructor <;> simp [recordFailure, attemptsAt, nextRetryAt, h]
  · intro ledger mid convId errMsg errType now m
    by_cases hm : m = mid
    · subst hm
      cases h : ledger m <;> simp [recordFailure, attemptsAt, h]
    · simp [recordFailure, attemptsAt, hm]
  · intro ledger mid h cA eA tA cB eB tB cC eC tC nA nB nC
    have h3 : (recordFailure (recordFailure (recordFailure ledger mid cA eA tA nA)
        mid cB eB tB nB) mid cC eC tC nC) mid =
        some { message_id := mid, conversation_id := cA, error_message := eC,
               error_type := tC, attempts := 3, last_attempt := nC,
               next_retry := some (nC + oneHourMs) } := by
      simp [recordFailure, h]
    refine ⟨by simp [attemptsAt, h3], ?_⟩
    intro msgTable now'
    unfold retryEligible
    rw [h3]
    cases msgTable mid <;> simp

/-- C3 witness: concrete instance of `c3_ledger_upsert_and_cutoff`. -/
theorem c3_ledger_witness :
    attemptsAt (recordFailure (recordFailure (recordFailure (fun _ => none)
        "m1" "c1" "err" "unknown_error" 0)
        "m1" "c1" "err" "unknown_error" 10)
        "m1" "c1" "err" "unknown_error" 20) "m1" = 3 :=
  (c3_ledger_upsert_and_cutoff.2.2.2 (fun _ => none) "m1" rfl
    "c1" "err" "unknown_error" "c1" "err" "unknown_error"
    "c1" "err" "unknown_error" 0 10 20).1

theorem fetchWithRetry_calls_le (f : Nat → FetchOutcome) :
    ∀ (n a : Nat), 4 ≤ a + n → (fetchWithRetry f a).2.1 ≤ n + 1 := by
  intro n
  induction n with
  | zero =>
    intro a ha
    cases hf : f a with
    | success d => rw [fetchWithRetry, hf]
    | failure st =>
      rw [fetchWithRetry, hf]
      simp only []
      rw [dif_neg fun hcon => absurd hcon.2 (by omega)]
  | succ n ih =>
    intro a ha
    cases hf : f a with
    | success d => rw [fetchWithRetry, hf]; simp
    | failure st =>
      rw [fetchWithRetry, hf]
      simp only []
      by_cases hc : st = some 429 ∧ a < 4
      · rw [dif_pos hc]
        have hrec := ih (a + 1) (by omega)
        simpa using Nat.add_le_add_right hrec 1
      · rw [dif_neg hc]
        simp

/-- C7: a failure whose status is not 429 propagates immediately with a
single call and no backoff; at most 4 total attempts are ever made; and
under persistent throttling the client makes exactly 4 attempts with
backoffs 1s, 2s, 4s before propagating the failure. -/
theorem c7_retry_only_on_throttle :
    (∀ (f : Nat → FetchOutcome) (a : Nat) (st : Option Nat),
      f a = .failure st → st ≠ some 429 →
      fetchWithRetry f a = (.failure st, 1, [])) ∧
    (∀ f : Nat → FetchOutcome, (fetchWithRetry f 1).2.1 ≤ 4) ∧
    (∀ f : Nat → FetchOutcome, (∀ a, f a = .failure (some 429)) →
      fetchWithRetry f 1 = (.failure (some 429), 4, [1000, 2000, 4000])) := by
  refine ⟨?_, ?_, ?_⟩
  · intro f a st hf hne
    rw [fetchWithRetry, hf]
    simp only []
    rw [dif_neg fun hcon => hne hcon.1]
  · intro f
    have := fetchWithRetry_calls_le f 3 1 (by omega)
    simpa using this
  · intro f h
    have e4 : fetchWithRetry f 4 = (.failure (some 429), 1, []) := by
      rw [fetchWithRetry, h 4]
      simp only []
      rw [dif_neg fun hcon => absurd hcon.2 (by omega)]
    have e3 : fetchWithRetry f 3 = (.failure (some 429), 2, [4000]) := by
      rw [fetchWithRetry, h 3]
      simp only []
      rw [dif_pos (by simp)]
      simp [e4]
    have e2 : fetchWithRetry f 2 = (.failure (some 429), 3, [2000, 4000]) := by
      rw [fetchWithRetry, h 2]
      simp only []
      rw [dif_pos (by simp)]
      simp [e3]
    rw [fetchWithRetry, h 1]
    simp only []
    rw [dif_pos (by simp)]
    simp [e2]

/-- C7 witness: concrete instance of `c7_retry_only_on_throttle`. -/
theorem c7_retry_witness :
    fetchWithRetry (fun _ => .failure (some 429)) 1 =
      (.failure (some 429), 4, [1000, 2000, 4000]) :=
  c7_retry_only_on_throttle.2.2 (fun _ => .failure (some 429)) fun _ => rfl

/-- C8: the content normalizer is total — any falsy input and any array
with no extractable text yields `""`, never an error — and on the input
`[{"text":{"content":"a"}},{"text":{"content":""}},{"content":"b"}]` it
returns `"a b"` (empty parts dropped, both shapes extracted, joined with a
single space). -/
theorem c8_normalizer_total_and_example :
    (∀ j : Json, j.truthy = false → extractMessageContent j = "") ∧
    (∀ ps : List Json,
      (∀ p ∈ ps, extractPartText p = none ∨ extractPartText p = some "") →
      extractMessageContent (.jarr ps) = "") ∧
    extractMessageContent (.jarr [
      .jobj [("text", .jobj [("content", .jstr "a")])],
      .jobj [("text", .jobj [("content", .jstr "")])],
      .jobj [("content", .jstr "b")]]) = "a b" := by
  refine ⟨?_, ?_, by decide⟩
  · intro j hj
    unfold extractMessageContent
    rw [if_pos (by simp [hj])]
  · intro ps hps
    unfold extractMessageContent
    rw [if_neg (by simp [Json.truthy])]
    simp only []
    have hnil : (ps.filterMap extractPartText).filter
        (fun t => decide (0 < t.length)) = [] := by
      rw [List.filter_eq_nil_iff]
      intro a ha
      rw [List.mem_filterMap] at ha
      obtain ⟨x, hx, hfx⟩ := ha
      rcases hps x hx with h | h
      · rw [h] at hfx; exact absurd hfx (by simp)
      · rw [h] at hfx
        obtain rfl : a = "" := by simpa using hfx.symm
        simp
    rw [hnil]
    decide

/-- C8 witness: concrete instance of `c8_normalizer_total_and_example`. -/
theorem c8_normalizer_witness :
    extractMessageContent (.jarr [.jobj [("other", .jstr "x")],
      .jobj [("text", .jobj [("content", .jstr "")])]]) = "" :=
  c8_normalizer_total_and_example.2.1
    [.jobj [("other", .jstr "x")], .jobj [("text", .jobj [("content", .jstr "")])]]
    (by intro p hp; fin_cases hp <;> simp [extractPartText, Json.getField,
      optTruthy, Json.truthy, List.find?])

/-- C9: for a conversation with a resolvable id, the sync pass upserts it
iff its created or updated timestamp lies in `[windowStart, now]`; when
neither does, it is skipped with no upsert and `convsSkippedNotInWindow`
incremented; and a conversation created at `windowStart - 1s` but updated
at `windowStart + 1s` is processed and upserted. -/
theorem c9_window_gate (detail uc : ConvoSrc) (ws now : Int)
    (c : SyncCounters) (hid : resolveConvoId detail uc ≠ "") :
    ((syncConvoStep detail uc ws now c).2.2 = some (resolveConvoId detail uc) ↔
      (inWindowOpt (resolveCreated detail uc) ws now = true ∨
       inWindowOpt (resolveUpdated detail uc) ws now = true)) ∧
    (inWindowOpt (resolveCreated detail uc) ws now = false →
     inWindowOpt (resolveUpdated detail uc) ws now = false →
      syncConvoStep detail uc ws now c =
        (.skippedOutOfWindow,
          { c with convsSkippedNotInWindow := c.convsSkippedNotInWindow + 1 },
          none)) ∧
    (resolveCreated detail uc = some (ws - 1000) →
     resolveUpdated detail uc = some (ws + 1000) → ws + 1000 ≤ now →
      (syncConvoStep detail uc ws now c).1 =
        .processed (resolveConvoId detail uc) ∧
      (syncConvoStep detail uc ws now c).2.1.convsUpserted =
        c.convsUpserted + 1) := by
  refine ⟨?_, ?_, ?_⟩
  · unfold syncConvoStep
    rw [if_neg hid]
    by_cases hcond : ¬ (inWindowOpt (resolveCreated detail uc) ws now = true) ∧
        ¬ (inWindowOpt (resolveUpdated detail uc) ws now = true)
    · rw [if_pos hcond]
      simp [hcond.1, hcond.2]
    · rw [if_neg hcond]
      rw [not_and_or, not_not, not_not] at hcond
      exact ⟨fun _ => hcond, fun _ => rfl⟩
  · intro hA hB
    unfold syncConvoStep
    rw [if_neg hid, if_pos ⟨by simp [hA], by simp [hB]⟩]
  · intro hcr hup hle
    have hB : inWindowOpt (resolveUpdated detail uc) ws now = true := by
      rw [hup]
      simp only [inWindowOpt, isWithinWindow, Bool.and_eq_true, decide_eq_true_eq]
      omega
    unfold syncConvoStep
    rw [if_neg hid, if_neg fun hcon => hcon.2 hB]
    exact ⟨rfl, rfl⟩

/-- C9 witness: concrete instance of `c9_window_gate`. -/
theorem c9_window_witness :
    (syncConvoStep
        { id := "conv1", uuid := "", created_time := some (-1000),
          created_at := none, updated_time := some 1000, updated_at := none }
        { id := "", uuid := "", created_time := none, created_at := none,
          updated_time := none, updated_at := none }
        0 10000 { convsUpserted := 0, convsSkippedNotInWindow := 0 }).1 =
      .processed (resolveConvoId
        { id := "conv1", uuid := "", created_time := some (-1000),
          created_at := none, updated_time := some 1000, updated_at := none }
        { id := "", uuid := "", created_time := none, created_at := none,
          updated_time := none, updated_at := none }) :=
  ((c9_window_gate _ _ 0 10000
      { convsUpserted := 0, convsSkippedNotInWindow := 0 }
      (by decide)).2.2 (by decide) (by decide) (by omega)).1

/-- C5: when page 1 is exactly the requested page size and page 2 is
shorter, `paginate` returns the concatenation of the two pages and makes
exactly 2 fetch calls (no third fetch). -/
theorem c5_two_page_termination (fetch : Nat → List Item) (n : Nat)
    (h1 : (fetch 1).length = jsOrNat n 10)
    (h2 : (fetch 2).length < jsOrNat n 10) :
    paginate fetch n 1 = (fetch 1 ++ fetch 2, 2) := by
  have hPpos : 0 < jsOrNat n 10 := by
    unfold jsOrNat
    split <;> omega
  have hne1 : ¬ ((fetch 1).isEmpty = true) := by
    intro h
    rw [List.isEmpty_iff] at h
    rw [h] at h1
    simp at h1
    omega
  show paginateLoop fetch (jsOrNat n 10) [] [] (jsOrNat 1 1) 0 0 =
    (fetch 1 ++ fetch 2, 2)
  have hpage : jsOrNat 1 1 = 1 := rfl
  rw [hpage, paginateLoop]
  rw [if_neg hne1]
  have hstep2 : ∀ seen : List String,
      paginateLoop fetch (jsOrNat n 10) ([] ++ fetch 1) seen (1 + 1) (0 + 1) (0 + 1) =
        (fetch 1 ++ fetch 2, 2) := by
    intro seen
    rw [paginateLoop]
    show (if (fetch (1 + 1)).isEmpty = true then ([] ++ fetch 1, 0 + 1 + 1) else _) = _
    by_cases hemp : fetch 2 = []
    · rw [if_pos (by simp [show (1 + 1) = 2 from rfl, hemp])]
      simp [hemp]
    · rw [if_neg (by simp [show (1 + 1) = 2 from rfl, hemp])]
      simp only [show (1 + 1) = 2 from rfl]
      split
      · rename_i fid2 heq2
        by_cases hmem : fid2 ∈ seen
        · rw [if_pos hmem]
          simp
        · rw [if_neg hmem, if_pos h2]
          simp
      · rw [if_pos h2]
        simp
  have hlt1 : ¬ ((fetch 1).length < jsOrNat n 10) := by omega
  have hlen1 : ¬ ((([] : List Item) ++ fetch 1).length = ([] : List Item).length) := by
    simp only [List.nil_append, List.length_nil]
    omega
  have hsafe : ¬ (0 + 1 > 200) := by omega
  split
  · rename_i fid heq
    rw [if_neg (List.not_mem_nil fid), if_neg hlt1, if_neg hlen1, dif_neg hsafe]
    exact hstep2 [fid]
  · rw [if_neg hlt1, if_neg hlen1, dif_neg hsafe]
    exact hstep2 []

/-- Against a source that returns the same full page (with a first id) on
every call, the loop stops after exactly two fetches, having appended the
repeated page a second time before the repeating-first-id check fires. -/
theorem paginate_const_full_page (fetch : Nat → List Item) (p : List Item)
    (n : Nat) (s : String) (hall : ∀ k, fetch k = p)
    (hlen : p.length = jsOrNat n 10) (hfid : firstIdOf p = some s) :
    paginate fetch n 1 = (p ++ p, 2) := by
  have hPpos : 0 < jsOrNat n 10 := by
    unfold jsOrNat
    split <;> omega
  have hne : ¬ (p.isEmpty = true) := by
    intro h
    rw [List.isEmpty_iff] at h
    rw [h] at hlen
    simp at hlen
    omega
  show paginateLoop fetch (jsOrNat n 10) [] [] (jsOrNat 1 1) 0 0 = (p ++ p, 2)
  have hpage : jsOrNat 1 1 = 1 := rfl
  rw [hpage, paginateLoop, hall 1, if_neg hne]
  have hlt : ¬ (p.length < jsOrNat n 10) := by omega
  have hlen1 : ¬ ((([] : List Item) ++ p).length = ([] : List Item).length) := by
    simp only [List.nil_append, List.length_nil]
    omega
  have hsafe : ¬ (0 + 1 > 200) := by omega
  split
  · rename_i fid heq
    rw [if_neg (List.not_mem_nil fid), if_neg hlt, if_neg hlen1, dif_neg hsafe,
      paginateLoop, hall (1 + 1), if_neg hne]
    split
    · rename_i fid2 heq2
      have hfe : fid2 = fid := by
        rw [heq] at heq2
        exact (Option.some.inj heq2).symm
      rw [if_pos (List.mem_singleton.mpr hfe)]
      simp
    · rename_i heq2
      rw [hfid] at heq2
      exact absurd heq2 (by simp)
  · rename_i heq
    rw [hfid] at heq
    exact absurd heq (by simp)

/-- C6: against a source that ignores the page parameter and returns the
same full page (with a first-item id) on every call, `paginate` terminates
after exactly 2 fetch calls via the repeating-first-id detection, far below
the 200-page safety ceiling. -/
theorem c6_repeat_defense_two_calls (fetch : Nat → List Item) (p : List Item)
    (n : Nat) (s : String) (hall : ∀ k, fetch k = p)
    (hlen : p.length = jsOrNat n 10) (hfid : firstIdOf p = some s) :
    (paginate fetch n 1).2 = 2 := by
  rw [paginate_const_full_page fetch p n s hall hlen hfid]

/-- C10: when the repeating-first-id defense fires, the repeated page was
already appended before the check, so the returned list contains the
page's items twice — the defense bounds calls but does not deduplicate. -/
theorem c10_repeat_defense_duplicates (fetch : Nat → List Item)
    (p : List Item) (n : Nat) (s : String) (hall : ∀ k, fetch k = p)
    (hlen : p.length = jsOrNat n 10) (hfid : firstIdOf p = some s) :
    (paginate fetch n 1).1 = p ++ p := by
  rw [paginate_const_full_page fetch p n s hall hlen hfid]

/-- C5 witness: concrete instance of `c5_two_page_termination`. -/
theorem c5_two_page_witness :
    paginate (fun k => if k = 1 then [Item.mk "a" "", Item.mk "b" ""]
      else [Item.mk "c" ""]) 2 1 =
    ([Item.mk "a" "", Item.mk "b" "", Item.mk "c" ""], 2) :=
  c5_two_page_termination
    (fun k => if k = 1 then [Item.mk "a" "", Item.mk "b" ""]
      else [Item.mk "c" ""]) 2 (by decide) (by decide)

/-- C6 witness: concrete instance of `c6_repeat_defense_two_calls`. -/
theorem c6_repeat_defense_witness :
    (paginate (fun _ => [Item.mk "a" "", Item.mk "b" ""]) 2 1).2 = 2 :=
  c6_repeat_defense_two_calls (fun _ => [Item.mk "a" "", Item.mk "b" ""])
    [Item.mk "a" "", Item.mk "b" ""] 2 "a" (fun _ => rfl) (by decide) (by decide)

/-- C10 witness: concrete instance of `c10_repeat_defense_duplicates`. -/
theorem c10_repeat_duplicates_witness :
    (paginate (fun _ => [Item.mk "x" "", Item.mk "y" ""]) 2 1).1 =
      [Item.mk "x" "", Item.mk "y" ""] ++ [Item.mk "x" "", Item.mk "y" ""] :=
  c10_repeat_defense_duplicates (fun _ => [Item.mk "x" "", Item.mk "y" ""])
    [Item.mk "x" "", Item.mk "y" ""] 2 "x" (fun _ => rfl) (by decide) (by decide)
